import Mathlib

/-!
Verification of the response-formatting subsystem of the
Product-Recommendation-System repository
(`src/response_formatter.py`, class `ResponseFormatter`).

The Python code is shallowly embedded over `Txt := List Nat`, a list of
Unicode codepoints.  Every definition mirrors one Python function or one
regular expression of the source, with the Python name kept (leading
underscores dropped).  The `re` patterns of Python are embedded as executable
scanners whose leftmost-match / greedy / backtracking behaviour is
reproduced exactly for the patterns that occur in the source.

Modelling conventions:
* Python whitespace (`\s`, `str.strip`) is modelled by the ASCII whitespace
  class (space, tab, newline, carriage return, vertical tab, form feed).
* `str.lower` is modelled by the ASCII case map (A-Z to a-z).
* `float()` applied to a rating token matched by the pattern
  (digits, optional dot, digits) is modelled as the exact rational value of
  the decimal literal; IEEE rounding of representable magnitudes is not
  modelled, but the one observable failure of the pipeline -- `int(inf)`
  raising `OverflowError` after `float` overflows to infinity -- is modelled
  by `floatOverflows`, using the exact decimal overflow threshold of IEEE
  binary64 (values of at least 2^1024 - 2^970 round to infinity).
* exceptions are modelled with `Except Unit`; the only fallible stage of the
  source is the star-rating rendering (`int(float(...))`), and
  `format_response` catches everything and answers with the fallback markup.
-/

set_option maxRecDepth 40000
set_option exponentiation.threshold 2048

/-- Codepoint text: the model of a Python `str`. -/
abbrev Txt : Type := List Nat

/-- Encode a Lean string literal as codepoint text. -/
def enc (s : String) : Txt := s.data.map Char.toNat

/-- ASCII whitespace class: model of Python `\s` / default `str.strip`. -/
def isSpaceN (n : Nat) : Bool :=
  decide (n = 32 ∨ n = 9 ∨ n = 10 ∨ n = 13 ∨ n = 11 ∨ n = 12)

/-- Decimal digit class: model of `\d`. -/
def isDigitN (n : Nat) : Bool := decide (48 ≤ n ∧ n ≤ 57)

/-- Bullet marker class of the source: `[-•*]` (dash 45, bullet 8226, asterisk 42). -/
def isMarkerN (n : Nat) : Bool := decide (n = 45 ∨ n = 8226 ∨ n = 42)

/-- ASCII lower-casing of one codepoint: model of `str.lower`. -/
def lowerChar (n : Nat) : Nat := if 65 ≤ n ∧ n ≤ 90 then n + 32 else n

/-- Model of `str.lower` on a whole string. -/
def pyLower (s : Txt) : Txt := s.map lowerChar

/-- Model of Python `str.strip()` (both-ends whitespace strip). -/
def pyStrip (s : Txt) : Txt :=
  ((s.dropWhile isSpaceN).reverse.dropWhile isSpaceN).reverse

/-- Worker for `re.sub(r"\s+", " ", _)`: collapse every whitespace run into a
single space; the flag records whether the previous character was whitespace. -/
def collapseWsAux : Bool → Txt → Txt
  | _, [] => []
  | prev, c :: cs =>
    if isSpaceN c then
      if prev then collapseWsAux true cs else 32 :: collapseWsAux true cs
    else c :: collapseWsAux false cs

/-- Model of `str.replace two-star to empty`: left-to-right non-overlapping removal. -/
def replaceDoubleStar : Txt → Txt
  | 42 :: 42 :: cs => replaceDoubleStar cs
  | c :: cs => c :: replaceDoubleStar cs
  | [] => []

/-- Model of `str.replace star to empty`. -/
def removeStar (s : Txt) : Txt := s.filter (fun c => !(decide (c = 42)))

/-- `ResponseFormatter._clean_response`: strip, collapse whitespace runs to a
single space, remove `**` then `*`. -/
def clean_response (response : Txt) : Txt :=
  removeStar (replaceDoubleStar (collapseWsAux false (pyStrip response)))

/-- Is `p` a prefix of `s` (executable). -/
def isPrefixTxt : Txt → Txt → Bool
  | [], _ => true
  | _ :: _, [] => false
  | a :: ps, b :: ss => decide (a = b) && isPrefixTxt ps ss

/-- Model of Python `p in s` (substring containment). -/
def containsTxt : Txt → Txt → Bool
  | [], p => isPrefixTxt p []
  | c :: cs, p => isPrefixTxt p (c :: cs) || containsTxt cs p

/-- `self.product_keywords` of `ResponseFormatter.__init__`. -/
def product_keywords : List Txt :=
  [enc "smartphone", enc "laptop", enc "headphone", enc "phone", enc "computer",
   enc "tablet", enc "earphone", enc "speaker", enc "camera", enc "watch"]

/-- `self.brand_keywords` of `ResponseFormatter.__init__`. -/
def brand_keywords : List Txt :=
  [enc "samsung", enc "apple", enc "xiaomi", enc "realme", enc "oneplus", enc "google",
   enc "sony", enc "lg", enc "huawei", enc "oppo", enc "vivo", enc "motorola"]

/-- The recommendation-intent word list of `_is_product_recommendation`. -/
def recommendation_words : List Txt :=
  [enc "recommend", enc "suggest", enc "best", enc "top", enc "good",
   enc "excellent", enc "great"]

/-- Model of `re.search(r"\d+\.", response)` as a boolean: some digit is
immediately followed by a period. -/
def has_numbered_list : Txt → Bool
  | a :: b :: rest => (isDigitN a && decide (b = 46)) || has_numbered_list (b :: rest)
  | _ => false

/-- Model of `re.search(r"[-•*]\s", response)` as a boolean: some dash, bullet
glyph or asterisk is immediately followed by a whitespace character
(anywhere in the string; the pattern is not anchored to line starts). -/
def has_bullet_points : Txt → Bool
  | a :: b :: rest => (isMarkerN a && isSpaceN b) || has_bullet_points (b :: rest)
  | _ => false

/-- `ResponseFormatter._is_product_recommendation`: the keyword checks run on
the lower-cased text, the two list-pattern checks on the text as given. -/
def is_product_recommendation (response : Txt) : Bool :=
  (product_keywords.any (fun k => containsTxt (pyLower response) k) ||
   brand_keywords.any (fun b => containsTxt (pyLower response) b)) &&
  (recommendation_words.any (fun w => containsTxt (pyLower response) w) ||
   has_numbered_list response || has_bullet_points response)

/-- The `\s*([^.\n]+)` tail of the item pattern of `_extract_products`, with
the greedy/backtracking behaviour of the regex engine: `\s*` consumes a maximal
whitespace run, then `[^.\n]+` must match at least one character; on failure
`\s*` gives characters back one at a time (a given-back character can start
the content only if it is not a newline).  Returns the captured content and
the remainder of the text after the match. -/
def matchWsContent : Txt → Option (Txt × Txt)
  | [] => none
  | c :: cs =>
    if isSpaceN c then
      match matchWsContent cs with
      | some r => some r
      | none =>
        if c = 10 then none
        else
          let cont := (c :: cs).takeWhile (fun x => decide (x ≠ 46 ∧ x ≠ 10))
          some (cont, (c :: cs).drop cont.length)
    else if c = 46 then none
    else
      let cont := (c :: cs).takeWhile (fun x => decide (x ≠ 46 ∧ x ≠ 10))
      some (cont, (c :: cs).drop cont.length)

/-- One attempted match of `(\d+)\.\s*([^.\n]+)` at the start of `s`:
a maximal nonempty digit run, a literal period, then `matchWsContent`.
Returns (number group, content group, remainder after the match). -/
def matchItem (s : Txt) : Option (Txt × Txt × Txt) :=
  let d := s.takeWhile isDigitN
  if d.isEmpty then none
  else
    match s.drop d.length with
    | 46 :: t => (matchWsContent t).map (fun cr => (d, cr.1, cr.2))
    | _ => none

/-- Scanning loop of `re.findall(r"(\d+)\.\s*([^.\n]+)", s)`: try a match at
every position left to right; after a match, resume right after it.  The fuel
argument (initially the length of the text) bounds the recursion; one unit is
spent per position or match, so `s.length` units always suffice. -/
def findNumberedItemsFuel : Nat → Txt → List (Txt × Txt)
  | 0, _ => []
  | _, [] => []
  | fuel + 1, c :: cs =>
    match matchItem (c :: cs) with
    | some (d, cont, rest) => (d, cont) :: findNumberedItemsFuel fuel rest
    | none => findNumberedItemsFuel fuel cs

/-- Model of `re.findall(r"(\d+)\.\s*([^.\n]+)", s)`. -/
def findNumberedItems (s : Txt) : List (Txt × Txt) :=
  findNumberedItemsFuel s.length s

/-- Model of `content.split(" - ")[0]`: the part before the first
space-hyphen-space separator (the whole text when no separator occurs). -/
def splitSepHead : Txt → Txt
  | 32 :: 45 :: 32 :: _ => []
  | c :: cs => c :: splitSepHead cs
  | [] => []

/-- Model of `re.search(r"[₹$]\s*[\d,]+", content)`, returning the whole
matched text (group 0): a currency sign (8377 or 36), a maximal whitespace
run, then a maximal nonempty run of digits and commas.  Backtracking of `\s*`
never helps here because a whitespace character is not in `[\d,]`. -/
def searchPrice : Txt → Option Txt
  | [] => none
  | c :: cs =>
    if c = 8377 ∨ c = 36 then
      let w := cs.takeWhile isSpaceN
      let num := (cs.drop w.length).takeWhile (fun x => isDigitN x || decide (x = 44))
      if num.isEmpty then searchPrice cs else some (c :: (w ++ num))
    else searchPrice cs

/-- Model of `re.search(r"(\d+\.?\d*)/5", content)`, returning group 1: a
maximal digit run, optionally a period and a further maximal digit run,
immediately followed by the literal `/5`.  Backtracking inside the groups
can never succeed (a given-back digit can not match `/` or `.`), so on
failure the scan advances one position. -/
def searchRating : Txt → Option Txt
  | [] => none
  | c :: cs =>
    if isDigitN c then
      let d1 := (c :: cs).takeWhile isDigitN
      match (c :: cs).drop d1.length with
      | 46 :: r2 =>
        let d2 := r2.takeWhile isDigitN
        (match r2.drop d2.length with
         | 47 :: 53 :: _ => some (d1 ++ 46 :: d2)
         | _ => searchRating cs)
      | 47 :: 53 :: _ => some d1
      | _ => searchRating cs
    else searchRating cs

/-- A product record extracted by `_extract_products`; absent price/rating are
the empty text, as in the Python dict with `""` entries. -/
structure Product where
  name : Txt
  price : Txt
  rating : Txt
  description : Txt

deriving instance DecidableEq for Product

/-- `ResponseFormatter._extract_products`: one record per numbered item, the
name being the part of the content before the first ` - ` separator
(stripped); records with an empty name are dropped. -/
def extract_products (response : Txt) : List Product :=
  (findNumberedItems response).filterMap (fun it =>
    let content := it.2
    let product_name := pyStrip (splitSepHead content)
    if product_name.isEmpty then none
    else some { name := product_name,
                price := (searchPrice content).getD [],
                rating := (searchRating content).getD [],
                description := pyStrip content })

/-- Prepend a character to the first piece of a split result. -/
def consHead (c : Nat) : List Txt → List Txt
  | [] => [[c]]
  | p :: ps => (c :: p) :: ps

/-- Model of Python `str.split(sep)` for a one-character separator. -/
def splitOnChar (t : Nat) : Txt → List Txt
  | [] => [[]]
  | c :: cs =>
    if c = t then [] :: splitOnChar t cs else consHead c (splitOnChar t cs)

/-- Model of Python `str.split on a blank line`: split on two consecutive newlines,
left to right, non-overlapping. -/
def splitOnBlank : Txt → List Txt
  | 10 :: 10 :: cs => [] :: splitOnBlank cs
  | c :: cs => consHead c (splitOnBlank cs)
  | [] => [[]]

/-- Model of `re.search(r"^[-•*]\s", paragraph)`: the paragraph starts with a
marker immediately followed by whitespace. -/
def startsBulletMarker (p : Txt) : Bool :=
  match p with
  | m :: w :: _ => isMarkerN m && isSpaceN w
  | _ => false

/-- Model of `re.search(r"^\d+\.\s", paragraph)`: the paragraph starts with a
nonempty digit run, a period, then whitespace. -/
def startsNumberedMarker (p : Txt) : Bool :=
  let d := p.takeWhile isDigitN
  !d.isEmpty &&
    (match p.drop d.length with
     | 46 :: w :: _ => isSpaceN w
     | _ => false)

/-- The two marker-stripping substitutions of `_format_list`:
`re.sub(r"^[-•*]\s*", "", line)` then `re.sub(r"^\d+\.\s*", "", line)`. -/
def stripListMarkers (line : Txt) : Txt :=
  let l1 :=
    match line with
    | m :: rest => if isMarkerN m then rest.dropWhile isSpaceN else line
    | [] => line
  let d := l1.takeWhile isDigitN
  if d.isEmpty then l1
  else
    match l1.drop d.length with
    | 46 :: rest => rest.dropWhile isSpaceN
    | _ => l1

/-- Markup literals of the source templates (Python string fragments). -/
def genOpen : Txt := enc "<div class=\"general-response\">"

def genClose : Txt := enc "</div>"

def pOpen : Txt := enc "<p class=\"response-paragraph\">"

def pClose : Txt := enc "</p>"

def ulOpen : Txt := enc "<ul class=\"response-list\">"

def ulClose : Txt := enc "</ul>"

def liOpen : Txt := enc "<li class=\"response-list-item\">"

def liClose : Txt := enc "</li>"

/-- `ResponseFormatter._format_list`: split into lines, strip each, drop the
empty ones, strip leading bullet/number markers, and emit one list item per
remaining nonempty line. -/
def format_list (text : Txt) : Txt :=
  ulOpen ++
    List.flatten ((splitOnChar 10 text).filterMap (fun line =>
      let l := pyStrip line
      if l.isEmpty then none
      else
        let l2 := stripListMarkers l
        if l2.isEmpty then none else some (liOpen ++ l2 ++ liClose))) ++
  ulClose

/-- One markup block of `_format_general_response` for one paragraph:
`none` when the stripped paragraph is empty, otherwise a list block or a
paragraph block. -/
def general_block (p : Txt) : Option Txt :=
  let p2 := pyStrip p
  if p2.isEmpty then none
  else if startsBulletMarker p2 || startsNumberedMarker p2 then some (format_list p2)
  else some (pOpen ++ p2 ++ pClose)

/-- The sequence of markup blocks `_format_general_response` emits inside its
container, one per nonempty paragraph. -/
def general_blocks (response : Txt) : List Txt :=
  (splitOnBlank response).filterMap general_block

/-- `ResponseFormatter._format_general_response`. -/
def format_general_response (response : Txt) : Txt :=
  genOpen ++ List.flatten (general_blocks response) ++ genClose

/-- The sentence loop of `_get_recommendation_intro`: keep stripped pieces
until one matches `re.search(r"\d+\.", piece)` (then stop).  The pieces come
from a split on periods, so they never contain a period and the stop
condition can in fact never fire. -/
def takeIntroParts : List Txt → List Txt
  | [] => []
  | s :: ss => if has_numbered_list s then [] else pyStrip s :: takeIntroParts ss

/-- `ResponseFormatter._get_recommendation_intro`. -/
def get_recommendation_intro (response : Txt) : Txt :=
  let intro :=
    pyStrip (List.intercalate (enc ". ") (takeIntroParts (splitOnChar 46 response)))
  let intro2 :=
    if intro ≠ [] ∧ ¬(intro.getLast? = some 46) then intro ++ [46] else intro
  if intro2 = [] then enc "Here are some product recommendations based on your query:"
  else intro2

/-- Modelled from the spec: the introductory sentence as §4.4 words it --
every sentence (split on periods) preceding the first numbered-list marker,
joined with `. `, trimmed, with a final period ensured, the fixed default
sentence when no introductory sentences exist.  `takeBeforeMarker` cuts the
text at the first digit immediately followed by a period. -/
def takeBeforeMarker : Txt → Txt
  | a :: b :: rest =>
    if isDigitN a && decide (b = 46) then [] else a :: takeBeforeMarker (b :: rest)
  | [a] => [a]
  | [] => []

/-- Modelled from the spec (§4.4): see `takeBeforeMarker`. -/
def spec_intro (response : Txt) : Txt :=
  let parts := (splitOnChar 46 (takeBeforeMarker response)).map pyStrip
  let intro := pyStrip (List.intercalate (enc ". ") parts)
  let intro2 :=
    if intro ≠ [] ∧ ¬(intro.getLast? = some 46) then intro ++ [46] else intro
  if intro2 = [] then enc "Here are some product recommendations based on your query:"
  else intro2

/-- Modelled from the spec (§4.2 classifier): a bullet-list pattern as the
spec words it -- at least one line beginning with a dash, bullet glyph, or
asterisk followed by whitespace. -/
def spec_bullet_line_start (response : Txt) : Bool :=
  (splitOnChar 10 response).any startsBulletMarker

/-- Numeric value of a run of decimal digit codepoints (most significant
first), as Python reads it. -/
def natOfDigits (ds : List Nat) : Nat := ds.foldl (fun a d => a * 10 + (d - 48)) 0

/-- Exact rational value of a rating token matched by `(\d+\.?\d*)`: digits,
an optional period, further digits.  This models `float(product["rating"])`
as the exact decimal value (see the file header). -/
def ratingValue (r : Txt) : ℚ :=
  let d1 := r.takeWhile isDigitN
  match r.drop d1.length with
  | 46 :: r2 =>
    let d2 := r2.takeWhile isDigitN
    (natOfDigits d1 : ℚ) + (natOfDigits d2 : ℚ) / ((10 : ℚ) ^ d2.length)
  | _ => (natOfDigits d1 : ℚ)

/-- Does `float(rating)` overflow to infinity, making the subsequent
`int(rating_num)` raise `OverflowError`?  A decimal literal rounds to
infinity in IEEE binary64 exactly when its value is at least
2^1024 - 2^970; since that threshold is an integer and the fractional part
of the token is below one, it suffices to compare the integer part. -/
def floatOverflows (r : Txt) : Bool :=
  decide (2 ^ 1024 - 2 ^ 970 ≤ natOfDigits (r.takeWhile isDigitN))

/-- `int(rating_num)` of the source, the full-star count: truncation of the
(nonnegative) rating value, i.e. its floor. -/
def starsFullCount (q : ℚ) : Nat := (⌊q⌋).toNat

/-- `rating_num % 1 >= 0.5` of the source: the fractional part of the
(nonnegative) rating value is at least one half. -/
def starsHalf (q : ℚ) : Bool := decide ((1 : ℚ) / 2 ≤ q - (⌊q⌋ : ℚ))

/-- Star glyph fragments of `_create_product_cards`. -/
def starGlyph : Txt := enc "<i class=\x27fas fa-star stars\x27></i>"

def halfStarGlyph : Txt := enc "<i class=\x27fas fa-star-half-alt stars\x27></i>"

/-- The `stars_html` string built for a rating value: one full-star glyph per
unit of the integer part, one half-star glyph appended when the fractional
part is at least one half. -/
def stars_html_of (q : ℚ) : Txt :=
  List.flatten (List.replicate (starsFullCount q) starGlyph) ++
    (if starsHalf q then halfStarGlyph else [])

/-- The star-rating computation of `_create_product_cards` for one product:
empty markup when the rating is empty; otherwise `float` + `int`, which
raises (modelled as `.error ()`) when the float has overflowed to infinity. -/
def rating_stars (rating : Txt) : Except Unit Txt :=
  if rating.isEmpty then .ok []
  else if floatOverflows rating then .error ()
  else .ok (stars_html_of (ratingValue rating))

/-- Markup literals of the product-card template of `_create_product_cards`. -/
def cardsPre : Txt :=
  enc "\n        <div class=\"product-recommendation\">\n            <h4><i class=\"fas fa-star\"></i>Product Recommendations</h4>\n            <p class=\"recommendation-intro\">"

def cardsMid : Txt := enc "</p>\n            <div class=\"product-list\">\n        "

def cardsSuf : Txt :=
  enc "\n            </div>\n            <div class=\"disclaimer\">\n                <i class=\"fas fa-info-circle\"></i>\n                Recommendations are based on available product data and reviews.\n            </div>\n        </div>\n        "

def itemPre : Txt :=
  enc "\n                <div class=\"product-item\">\n                    <div class=\"product-name\">\n                        <i class=\"fas fa-mobile-alt\"></i>\n                        <strong>"

def itemMid1 : Txt :=
  enc "</strong>\n                    </div>\n                    <div class=\"product-description\">\n                        "

def itemMid2 : Txt := enc "\n                    </div>\n                    "

def priceOpen : Txt := enc "<div class=\"product-price\">"

def priceClose : Txt := enc "</div>"

def ratingOpen : Txt := enc "<div class=\"product-rating\"><span class=\"stars\">"

def ratingMid : Txt := enc "</span> <span>"

def ratingSuf : Txt := enc "/5</span></div>"

def itemSuf : Txt := enc "\n                "

/-- The markup of one product card (loop body of `_create_product_cards`),
with the 1-based display index `i` of the enumeration. -/
def product_item_html (i : Nat) (p : Product) : Except Unit Txt :=
  match rating_stars p.rating with
  | .error e => .error e
  | .ok stars =>
    .ok (itemPre ++ enc (Nat.repr i) ++ enc ". " ++ p.name ++ itemMid1 ++
         p.description ++ itemMid2 ++
         (if p.price ≠ [] then priceOpen ++ p.price ++ priceClose else []) ++
         (if p.rating ≠ [] then
            ratingOpen ++ stars ++ ratingMid ++ p.rating ++ ratingSuf
          else []) ++
         itemSuf)

/-- The card loop of `_create_product_cards`, `for i, product in
enumerate(products, 1)`. -/
def product_items_html (i : Nat) : List Product → Except Unit Txt
  | [] => .ok []
  | p :: ps =>
    match product_item_html i p with
    | .error e => .error e
    | .ok h =>
      match product_items_html (i + 1) ps with
      | .error e => .error e
      | .ok rest => .ok (h ++ rest)

/-- `ResponseFormatter._create_product_cards`. -/
def create_product_cards (products : List Product) (original_response : Txt) :
    Except Unit Txt :=
  match product_items_html 1 products with
  | .error e => .error e
  | .ok items =>
    .ok (cardsPre ++ get_recommendation_intro original_response ++ cardsMid ++
         items ++ cardsSuf)

/-- `ResponseFormatter._format_product_recommendation`: extract, then cards
when at least one record was found, otherwise the generic path on the same
text. -/
def format_product_recommendation (response : Txt) : Except Unit Txt :=
  let products := extract_products response
  if products.isEmpty then .ok (format_general_response response)
  else create_product_cards products response

/-- Markup literals of `_format_fallback_response`. -/
def fallbackPre : Txt :=
  enc "\n        <div class=\"general-response\">\n            <p class=\"response-paragraph\">"

def fallbackSuf : Txt := enc "</p>\n        </div>\n        "

/-- `ResponseFormatter._format_fallback_response`: wraps the text it is given
(the original, unnormalized input at the call site) in a minimal block. -/
def format_fallback_response (response : Txt) : Txt :=
  fallbackPre ++ response ++ fallbackSuf

/-- The `try` body of `ResponseFormatter.format_response`: clean, classify,
then render on the selected path; `.error` represents an exception escaping
the body. -/
def format_response_body (response : Txt) : Except Unit Txt :=
  let cleaned_response := clean_response response
  if is_product_recommendation cleaned_response then
    format_product_recommendation cleaned_response
  else .ok (format_general_response cleaned_response)

/-- `ResponseFormatter.format_response`: the body with the
`except Exception` handler that answers with the fallback markup built from
the original input. -/
def format_response (response : Txt) : Txt :=
  match format_response_body response with
  | .ok result => result
  | .error _ => format_fallback_response response

/-- Module-level `format_llm_response`, the public entry point. -/
def format_llm_response (response : Txt) : Txt := format_response response

deriving instance DecidableEq for Except

/-- Concrete input whose extracted rating token has 310 digits, so that
`float()` overflows to infinity and `int()` raises: the smallest-shaped
input that makes the real pipeline throw (and exercise the fallback). -/
def overflowInput : Txt := enc "1.  phone  1" ++ List.replicate 309 48 ++ enc "/5"

theorem isPrefixTxt_iff (p s : Txt) : isPrefixTxt p s = true ↔ p <+: s := by
  induction p generalizing s with
  | nil => simp [isPrefixTxt]
  | cons a ps ih =>
    cases s with
    | nil => simp [isPrefixTxt]
    | cons b ss => simp [isPrefixTxt, List.cons_prefix_cons, ih]

theorem containsTxt_iff (s p : Txt) : containsTxt s p = true ↔ p <:+: s := by
  induction s with
  | nil => simp [containsTxt, isPrefixTxt_iff]
  | cons c cs ih =>
    simp [containsTxt, isPrefixTxt_iff, ih, List.infix_cons_iff]

theorem hnl_iff (s : Txt) :
    has_numbered_list s = true ↔ ∃ d, isDigitN d = true ∧ [d, 46] <:+: s := by
  induction s with
  | nil => simp [has_numbered_list]
  | cons a tail ih =>
    cases tail with
    | nil =>
      simp [has_numbered_list, List.infix_cons_iff, List.cons_prefix_cons]
    | cons b rest =>
      rw [show has_numbered_list (a :: b :: rest) =
            ((isDigitN a && decide (b = 46)) || has_numbered_list (b :: rest)) from rfl]
      constructor
      · intro h
        rcases Bool.or_eq_true_iff.mp h with h1 | h2
        · rcases Bool.and_eq_true_iff.mp h1 with ⟨hd, hb⟩
          exact ⟨a, hd, [], rest, by simp [decide_eq_true_eq.mp hb]⟩
        · rcases ih.mp h2 with ⟨d, hd, hinf⟩
          exact ⟨d, hd, List.infix_cons_iff.mpr (Or.inr hinf)⟩
      · rintro ⟨d, hd, hinf⟩
        rcases List.infix_cons_iff.mp hinf with hpre | hsuf
        · rcases List.cons_prefix_cons.mp hpre with ⟨rfl, hpre2⟩
          rcases List.cons_prefix_cons.mp hpre2 with ⟨h46, _⟩
          simp [hd, ← h46]
        · exact Bool.or_eq_true_iff.mpr (Or.inr (ih.mpr ⟨d, hd, hsuf⟩))

theorem hbp_iff (s : Txt) :
    has_bullet_points s = true ↔
      ∃ m w, isMarkerN m = true ∧ isSpaceN w = true ∧ [m, w] <:+: s := by
  induction s with
  | nil => simp [has_bullet_points]
  | cons a tail ih =>
    cases tail with
    | nil =>
      simp [has_bullet_points, List.infix_cons_iff, List.cons_prefix_cons]
    | cons b rest =>
      rw [show has_bullet_points (a :: b :: rest) =
            ((isMarkerN a && isSpaceN b) || has_bullet_points (b :: rest)) from rfl]
      constructor
      · intro h
        rcases Bool.or_eq_true_iff.mp h with h1 | h2
        · rcases Bool.and_eq_true_iff.mp h1 with ⟨hm, hw⟩
          exact ⟨a, b, hm, hw, [], rest, by simp⟩
        · rcases ih.mp h2 with ⟨m, w, hm, hw, hinf⟩
          exact ⟨m, w, hm, hw, List.infix_cons_iff.mpr (Or.inr hinf)⟩
      · rintro ⟨m, w, hm, hw, hinf⟩
        rcases List.infix_cons_iff.mp hinf with hpre | hsuf
        · rcases List.cons_prefix_cons.mp hpre with ⟨rfl, hpre2⟩
          rcases List.cons_prefix_cons.mp hpre2 with ⟨rfl, _⟩
          simp [hm, hw]
        · exact Bool.or_eq_true_iff.mpr (Or.inr (ih.mpr ⟨m, w, hm, hw, hsuf⟩))

/-- Claim C4: for every string, `is_product_recommendation` returns true if
and only if (a product-noun keyword or a brand keyword occurs
case-insensitively, i.e. in the lower-cased text) and (a recommendation-intent
word occurs case-insensitively, or a digit immediately followed by a period
occurs, or a marker immediately followed by whitespace occurs): a conjunction
of two independent disjunctions. -/
theorem classifier_decision_rule (s : Txt) :
    is_product_recommendation s = true ↔
      ((∃ k ∈ product_keywords, k <:+: pyLower s) ∨
       (∃ b ∈ brand_keywords, b <:+: pyLower s)) ∧
      ((∃ w ∈ recommendation_words, w <:+: pyLower s) ∨
       (∃ d, isDigitN d = true ∧ [d, 46] <:+: s) ∨
       (∃ m w, isMarkerN m = true ∧ isSpaceN w = true ∧ [m, w] <:+: s)) := by
  simp only [is_product_recommendation, Bool.and_eq_true, Bool.or_eq_true,
    List.any_eq_true, containsTxt_iff, hnl_iff, hbp_iff]
  rw [or_assoc]

/-- Claim C5, counterexample: the claim says the bullet detector fires iff
some LINE BEGINS with a marker followed by whitespace.  On the input
"a- b" the source pattern `[-•*]\s` (searched anywhere) fires although no
line begins with a marker: the claim as stated is false. -/
theorem bullet_detector_not_line_anchored :
    has_bullet_points (enc "a- b") = true ∧
      spec_bullet_line_start (enc "a- b") = false := by decide

/-- Claim C5, amended: the bullet-list detector of the classifier fires if and
only if a dash, bullet glyph, or asterisk immediately followed by a
whitespace character occurs ANYWHERE in the string (not only at a line
start). -/
theorem bullet_detector_anywhere (s : Txt) :
    has_bullet_points s = true ↔
      ∃ m w, isMarkerN m = true ∧ isSpaceN w = true ∧ [m, w] <:+: s :=
  hbp_iff s

/-- Claim C2 (code bug, evaluation at the failing input): on the input
"1. Phone A - ₹20,000 4.5/5\n2. Phone B - $300" extraction yields the two
records in order with names "Phone A"/"Phone B" and prices "₹20,000"/"$300",
but the FIRST record has the empty rating, not "4.5": the item-content
pattern `[^.\n]+` stops at the period inside "4.5", so the rating pattern
`(\d+\.?\d*)/5` never sees the "/5" suffix (a decimal rating can never be
captured although the rating pattern was written to accept one). -/
theorem extract_rating_dropped_at_decimal :
    extract_products (enc "1. Phone A - ₹20,000 4.5/5\n2. Phone B - $300") =
      [{ name := enc "Phone A", price := enc "₹20,000", rating := [],
         description := enc "Phone A - ₹20,000 4" },
       { name := enc "Phone B", price := enc "$300", rating := [],
         description := enc "Phone B - $300" }] := by decide

/-- Claim C3 (code bug, evaluation at the failing input): the loop of
`_get_recommendation_intro` is meant (per its own comment and per the spec)
to stop at the first sentence carrying a numbered-list marker, but the
pieces of a split on periods can never contain a digit followed by a period,
so the stop never fires and the whole text -- numbered items included -- is
returned as the "intro", instead of only the sentences preceding the first
marker. -/
theorem recommendation_intro_includes_items :
    get_recommendation_intro (enc "I recommend these. 1. Phone A - good")
        = enc "I recommend these. 1. Phone A - good." ∧
      spec_intro (enc "I recommend these. 1. Phone A - good")
        = enc "I recommend these." := by decide

/-- Claim C6: whenever the classifier accepts the cleaned text but the
extractor yields zero records, the public entry point renders via the
generic path applied to the same cleaned text (never an empty product
block). -/
theorem no_items_degrades_to_general (s : Txt)
    (h1 : is_product_recommendation (clean_response s) = true)
    (h2 : extract_products (clean_response s) = []) :
    format_llm_response s = format_general_response (clean_response s) := by
  simp only [format_llm_response, format_response, format_response_body,
    format_product_recommendation, h1, h2, if_true, List.isEmpty_nil, if_pos]

theorem no_items_degrades_to_general_witness :
    is_product_recommendation (clean_response (enc "I recommend this smartphone")) = true ∧
      extract_products (clean_response (enc "I recommend this smartphone")) = [] ∧
      format_llm_response (enc "I recommend this smartphone") =
        format_general_response (clean_response (enc "I recommend this smartphone")) :=
  ⟨by decide, by decide,
    no_items_degrades_to_general (enc "I recommend this smartphone") (by decide) (by decide)⟩

theorem lowerChar_idem (a : Nat) : lowerChar (lowerChar a) = lowerChar a := by
  unfold lowerChar
  by_cases h : 65 ≤ a ∧ a ≤ 90
  · rw [if_pos h, if_neg (by omega)]
  · rw [if_neg h, if_neg h]

/-- Two codepoints with the same lower-casing agree on every character class
the patterns of the classifier test (the case map only moves ASCII letters). -/
theorem lowerChar_eq_classes (a b : Nat) (h : lowerChar a = lowerChar b) :
    isDigitN a = isDigitN b ∧ decide (a = 46) = decide (b = 46) ∧
      isSpaceN a = isSpaceN b ∧ isMarkerN a = isMarkerN b := by
  unfold lowerChar at h
  unfold isDigitN isSpaceN isMarkerN
  split at h <;> split at h <;>
    exact ⟨by rw [decide_eq_decide]; omega, by rw [decide_eq_decide]; omega,
           by rw [decide_eq_decide]; omega, by rw [decide_eq_decide]; omega⟩

theorem hnl_lower_invariant :
    ∀ s t : Txt, pyLower s = pyLower t →
      has_numbered_list s = has_numbered_list t := by
  intro s
  induction s with
  | nil =>
    intro t h
    have : t = [] := by simpa [pyLower, eq_comm] using h.symm
    rw [this]
  | cons a s2 ih =>
    intro t h
    cases t with
    | nil => simp [pyLower] at h
    | cons b t2 =>
      simp only [pyLower, List.map_cons, List.cons.injEq] at h
      obtain ⟨hab, htail⟩ := h
      cases s2 with
      | nil =>
        cases t2 with
        | nil => rfl
        | cons c t3 => simp at htail
      | cons a2 s3 =>
        cases t2 with
        | nil => simp at htail
        | cons b2 t3 =>
          have h2 : lowerChar a2 = lowerChar b2 := by
            simpa using congrArg (fun l => l.headD 0) htail
          have hrec := ih (b2 :: t3) (by simpa [pyLower] using htail)
          rw [show has_numbered_list (a :: a2 :: s3) =
                ((isDigitN a && decide (a2 = 46)) || has_numbered_list (a2 :: s3)) from rfl,
              show has_numbered_list (b :: b2 :: t3) =
                ((isDigitN b && decide (b2 = 46)) || has_numbered_list (b2 :: t3)) from rfl,
              (lowerChar_eq_classes a b hab).1, (lowerChar_eq_classes a2 b2 h2).2.1, hrec]

theorem hbp_lower_invariant :
    ∀ s t : Txt, pyLower s = pyLower t →
      has_bullet_points s = has_bullet_points t := by
  intro s
  induction s with
  | nil =>
    intro t h
    have : t = [] := by simpa [pyLower, eq_comm] using h.symm
    rw [this]
  | cons a s2 ih =>
    intro t h
    cases t with
    | nil => simp [pyLower] at h
    | cons b t2 =>
      simp only [pyLower, List.map_cons, List.cons.injEq] at h
      obtain ⟨hab, htail⟩ := h
      cases s2 with
      | nil =>
        cases t2 with
        | nil => rfl
        | cons c t3 => simp at htail
      | cons a2 s3 =>
        cases t2 with
        | nil => simp at htail
        | cons b2 t3 =>
          have h2 : lowerChar a2 = lowerChar b2 := by
            simpa using congrArg (fun l => l.headD 0) htail
          have hrec := ih (b2 :: t3) (by simpa [pyLower] using htail)
          rw [show has_bullet_points (a :: a2 :: s3) =
                ((isMarkerN a && isSpaceN a2) || has_bullet_points (a2 :: s3)) from rfl,
              show has_bullet_points (b :: b2 :: t3) =
                ((isMarkerN b && isSpaceN b2) || has_bullet_points (b2 :: t3)) from rfl,
              (lowerChar_eq_classes a b hab).2.2.2, (lowerChar_eq_classes a2 b2 h2).2.2.1, hrec]

/-- Claim C9: the classifier is a pure function of its case-normalized input:
it answers the same on any two strings with the same lower-casing, and in
particular the same on a string and its lower-casing. -/
theorem classifier_case_insensitive :
    (∀ s t : Txt, pyLower s = pyLower t →
        is_product_recommendation s = is_product_recommendation t) ∧
    (∀ s : Txt, is_product_recommendation s = is_product_recommendation (pyLower s)) := by
  have main : ∀ s t : Txt, pyLower s = pyLower t →
      is_product_recommendation s = is_product_recommendation t := by
    intro s t h
    unfold is_product_recommendation
    rw [h, hnl_lower_invariant s t h, hbp_lower_invariant s t h]
  refine ⟨main, fun s => main s (pyLower s) ?_⟩
  show s.map lowerChar = (s.map lowerChar).map lowerChar
  rw [List.map_map]
  exact (List.map_congr_left fun a _ => (lowerChar_idem a).symm)

theorem classifier_case_insensitive_witness :
    pyLower (enc "Recommend The PHONE 1.") = pyLower (enc "recommend the phone 1.") ∧
      is_product_recommendation (enc "Recommend The PHONE 1.") =
        is_product_recommendation (enc "recommend the phone 1.") :=
  ⟨by decide,
    classifier_case_insensitive.1 (enc "Recommend The PHONE 1.")
      (enc "recommend the phone 1.") (by decide)⟩

theorem replaceDoubleStar_cons_eq (c : Nat) (cs : Txt)
    (h42 : ∀ cs2 : Txt, c = 42 → cs = 42 :: cs2 → False) :
    replaceDoubleStar (c :: cs) = c :: replaceDoubleStar cs := by
  rw [replaceDoubleStar.eq_def]
  split
  · rename_i cs2 heq
    injection heq with h1 h2
    exact (h42 cs2 h1 h2).elim
  · rename_i c2 cs2 heq
    injection heq with h1 h2
    rw [h1, h2]
  · rename_i heq
    exact (List.cons_ne_nil _ _ heq).elim

theorem mem_replaceDoubleStar (x : Nat) : ∀ l : Txt, x ∈ replaceDoubleStar l → x ∈ l := by
  intro l
  induction l using replaceDoubleStar.induct with
  | case1 cs ih =>
    intro h
    exact List.mem_cons_of_mem _ (List.mem_cons_of_mem _ (ih h))
  | case2 c cs h42 ih =>
    intro h
    rw [replaceDoubleStar_cons_eq c cs h42] at h
    rcases List.mem_cons.mp h with h1 | h2
    · exact h1 ▸ List.mem_cons_self _ _
    · exact List.mem_cons_of_mem _ (ih h2)
  | case3 =>
    intro h
    exact absurd h (List.not_mem_nil x)

/-- Every character the whitespace-collapsing pass emits is either a space
(32) or a non-whitespace input character; in particular never a newline. -/
theorem collapse_no_nl : ∀ (b : Bool) (l : Txt), ∀ x ∈ collapseWsAux b l, x ≠ 10 := by
  intro b l
  induction l generalizing b with
  | nil => intro x hx; simp [collapseWsAux] at hx
  | cons c cs ih =>
    intro x hx
    unfold collapseWsAux at hx
    by_cases hc : isSpaceN c = true
    · rw [if_pos hc] at hx
      cases b with
      | true => exact ih true x hx
      | false =>
        rcases List.mem_cons.mp hx with h1 | h2
        · rw [h1]; decide
        · exact ih true x h2
    · rw [if_neg hc] at hx
      rcases List.mem_cons.mp hx with h1 | h2
      · rw [h1]; intro hceq; exact hc (by rw [hceq]; decide)
      · exact ih false x h2

/-- The normalized (cleaned) text never contains a newline. -/
theorem clean_no_nl (s : Txt) : ∀ x ∈ clean_response s, x ≠ 10 := by
  intro x hx
  have hx2 := (List.mem_filter.mp hx).1
  have hx3 := mem_replaceDoubleStar x _ hx2
  exact collapse_no_nl false _ x hx3

theorem splitOnBlank_cons_eq (c : Nat) (cs : Txt) (hc : c ≠ 10) :
    splitOnBlank (c :: cs) = consHead c (splitOnBlank cs) := by
  rw [splitOnBlank.eq_def]
  split
  · rename_i cs2 heq
    injection heq with h1 _
    exact (hc h1).elim
  · rename_i c2 cs2 heq
    injection heq with h1 h2
    rw [h1, h2]
  · rename_i heq
    exact (List.cons_ne_nil _ _ heq).elim

/-- A text without newlines is a single paragraph for the blank-line split. -/
theorem splitOnBlank_no_nl (t : Txt) (h : ∀ x ∈ t, x ≠ 10) : splitOnBlank t = [t] := by
  induction t with
  | nil => rfl
  | cons c cs ih =>
    rw [splitOnBlank_cons_eq c cs (h c (List.mem_cons_self _ _)),
        ih (fun x hx => h x (List.mem_cons_of_mem _ hx))]
    rfl

/-- Claim C10, counterexample: through the public entry point, on the empty
string the generic path runs (the classifier rejects) and emits ZERO blocks,
not exactly one: the container closes immediately. -/
theorem generic_single_block_fails_on_empty :
    is_product_recommendation (clean_response (enc "")) = false ∧
      (general_blocks (clean_response (enc ""))).length = 0 ∧
      format_llm_response (enc "") = genOpen ++ genClose := by decide

/-- Claim C10, amended: through the public entry point the generic renderer
emits AT MOST one block -- normalization collapses every newline, so the
blank-line split yields a single paragraph and the per-line list split a
single line -- and exactly one block when the normalized text is non-blank
(nonempty after stripping); on blank input it emits zero blocks. -/
theorem generic_at_most_one_block (s : Txt) :
    (general_blocks (clean_response s)).length ≤ 1 ∧
      (pyStrip (clean_response s) ≠ [] →
        (general_blocks (clean_response s)).length = 1) := by
  have hsp : splitOnBlank (clean_response s) = [clean_response s] :=
    splitOnBlank_no_nl _ (clean_no_nl s)
  unfold general_blocks
  rw [hsp]
  cases hgb : general_block (clean_response s) with
  | none =>
    refine ⟨by simp [hgb], fun hne => ?_⟩
    exfalso
    simp only [general_block] at hgb
    split at hgb
    · rename_i he; exact hne (List.isEmpty_iff.mp he)
    · split at hgb <;> simp at hgb
  | some b =>
    have hfm : List.filterMap general_block [clean_response s] = [b] := by
      simp [List.filterMap_cons, hgb]
    rw [hfm]
    exact ⟨by simp, fun _ => by simp⟩

theorem generic_at_most_one_block_witness :
    pyStrip (clean_response (enc "hello")) ≠ [] ∧
      (general_blocks (clean_response (enc "hello"))).length = 1 :=
  ⟨by decide, (generic_at_most_one_block (enc "hello")).2 (by decide)⟩

theorem format_general_response_ne_nil (t : Txt) : format_general_response t ≠ [] := by
  unfold format_general_response
  exact List.append_ne_nil_of_left_ne_nil
    (List.append_ne_nil_of_left_ne_nil (by decide) _) _

theorem create_product_cards_ok_ne_nil (ps : List Product) (o r : Txt)
    (h : create_product_cards ps o = .ok r) : r ≠ [] := by
  unfold create_product_cards at h
  cases hi : product_items_html 1 ps with
  | error e => rw [hi] at h; exact Except.noConfusion h
  | ok items =>
    rw [hi] at h
    injection h with h2
    rw [← h2]
    exact List.append_ne_nil_of_left_ne_nil
      (List.append_ne_nil_of_left_ne_nil
        (List.append_ne_nil_of_left_ne_nil
          (List.append_ne_nil_of_left_ne_nil (by decide) _) _) _) _

theorem format_response_body_ok_ne_nil (s : Txt) (r : Txt)
    (h : format_response_body s = .ok r) : r ≠ [] := by
  simp only [format_response_body] at h
  by_cases hc : is_product_recommendation (clean_response s) = true
  · rw [if_pos hc] at h
    unfold format_product_recommendation at h
    by_cases he : (extract_products (clean_response s)).isEmpty
    · rw [if_pos he] at h
      injection h with h2
      rw [← h2]
      exact format_general_response_ne_nil _
    · rw [if_neg he] at h
      exact create_product_cards_ok_ne_nil _ _ _ h
  · rw [if_neg hc] at h
    injection h with h2
    rw [← h2]
    exact format_general_response_ne_nil _

/-- Claim C1: totality of the public formatter.  Every stage of the embedded
pipeline is a total function, the one modelled exception (rating-float
overflow) is caught by the top-level handler -- so on EVERY input the entry
point returns a markup string, and that string is never empty (each of the
three possible renderings opens with a fixed nonempty markup literal). -/
theorem format_total_nonempty (s : Txt) : format_llm_response s ≠ [] := by
  unfold format_llm_response format_response
  cases hb : format_response_body s with
  | ok r => simpa using format_response_body_ok_ne_nil s r hb
  | error e =>
    simp only []
    unfold format_fallback_response
    exact List.append_ne_nil_of_left_ne_nil
      (List.append_ne_nil_of_left_ne_nil (by decide) _) _

/-- Claim C8: whenever an exception escapes the pipeline body (normalization,
classification, extraction, structured rendering), the formatter answers with
the fallback markup wrapping the ORIGINAL, unnormalized input text -- not the
cleaned text -- and the exception is never surfaced: `format_response` is a
total function into markup strings. -/
theorem exception_yields_fallback_on_original (s : Txt) (e : Unit)
    (h : format_response_body s = .error e) :
    format_llm_response s = fallbackPre ++ s ++ fallbackSuf := by
  unfold format_llm_response format_response
  rw [h]
  rfl

theorem exception_yields_fallback_on_original_witness :
    format_response_body overflowInput = .error () ∧
      format_llm_response overflowInput =
        fallbackPre ++ overflowInput ++ fallbackSuf ∧
      clean_response overflowInput ≠ overflowInput :=
  ⟨by decide,
   exception_yields_fallback_on_original overflowInput () (by decide),
   by decide⟩

theorem takeWhile_of_all {p : Nat → Bool} :
    ∀ l : Txt, (∀ a ∈ l, p a = true) → l.takeWhile p = l := by
  intro l h
  induction l with
  | nil => rfl
  | cons c cs ih =>
    rw [List.takeWhile_cons, if_pos (h c (List.mem_cons_self _ _)),
        ih (fun x hx => h x (List.mem_cons_of_mem _ hx))]

theorem natOfDigits_aux_lt :
    ∀ (es : Txt) (acc : Nat), (∀ d ∈ es, isDigitN d = true) →
      es.foldl (fun a d => a * 10 + (d - 48)) acc < (acc + 1) * 10 ^ es.length := by
  intro es
  induction es with
  | nil => intro acc _; simp
  | cons d es ih =>
    intro acc h
    have hd : 48 ≤ d ∧ d ≤ 57 := by
      have := h d (List.mem_cons_self _ _)
      simpa [isDigitN] using this
    calc es.foldl (fun a d => a * 10 + (d - 48)) (acc * 10 + (d - 48))
        < (acc * 10 + (d - 48) + 1) * 10 ^ es.length :=
          ih _ (fun x hx => h x (List.mem_cons_of_mem _ hx))
      _ ≤ ((acc + 1) * 10) * 10 ^ es.length :=
          Nat.mul_le_mul_right _ (by omega)
      _ = (acc + 1) * 10 ^ (es.length + 1) := by rw [pow_succ]; ring
      _ = (acc + 1) * 10 ^ (d :: es).length := by rw [List.length_cons]

theorem natOfDigits_lt (es : Txt) (h : ∀ d ∈ es, isDigitN d = true) :
    natOfDigits es < 10 ^ es.length := by
  have := natOfDigits_aux_lt es 0 h
  simpa [natOfDigits] using this

theorem ratingValue_nodot (ds : Txt) (hds : ∀ d ∈ ds, isDigitN d = true) :
    ratingValue ds = (natOfDigits ds : ℚ) := by
  simp only [ratingValue, takeWhile_of_all ds hds, List.drop_length]

theorem ratingValue_dot (ds es : Txt) (hds : ∀ d ∈ ds, isDigitN d = true)
    (hes : ∀ d ∈ es, isDigitN d = true) :
    ratingValue (ds ++ 46 :: es) =
      (natOfDigits ds : ℚ) + (natOfDigits es : ℚ) / (10 : ℚ) ^ es.length := by
  have h1 : (ds ++ 46 :: es).takeWhile isDigitN = ds := by
    rw [List.takeWhile_append_of_pos hds, List.takeWhile_cons,
        if_neg (by decide : ¬isDigitN 46 = true), List.append_nil]
  simp only [ratingValue, h1, List.drop_left, takeWhile_of_all es hes]

theorem floor_add_frac (a b k : Nat) (hb : b < 10 ^ k) :
    ⌊(a : ℚ) + (b : ℚ) / (10 : ℚ) ^ k⌋ = (a : ℤ) := by
  rw [Int.floor_eq_iff]
  have h0 : (0 : ℚ) ≤ (b : ℚ) / (10 : ℚ) ^ k := by positivity
  have h1 : (b : ℚ) / (10 : ℚ) ^ k < 1 := by
    rw [div_lt_one (by positivity)]
    exact_mod_cast hb
  constructor
  · push_cast; linarith
  · push_cast; linarith

theorem stars_nodot (ds : Txt) (hds : ∀ d ∈ ds, isDigitN d = true) :
    starsFullCount (ratingValue ds) = natOfDigits ds ∧
      starsHalf (ratingValue ds) = false := by
  rw [ratingValue_nodot ds hds]
  constructor
  · simp [starsFullCount, Int.floor_natCast]
  · simp only [starsHalf, Int.floor_natCast]
    norm_num

theorem stars_dot (ds es : Txt) (hds : ∀ d ∈ ds, isDigitN d = true)
    (hes : ∀ d ∈ es, isDigitN d = true) :
    starsFullCount (ratingValue (ds ++ 46 :: es)) = natOfDigits ds ∧
      starsHalf (ratingValue (ds ++ 46 :: es)) =
        decide (10 ^ es.length ≤ 2 * natOfDigits es) := by
  have hb := natOfDigits_lt es hes
  rw [ratingValue_dot ds es hds hes]
  have hfl := floor_add_frac (natOfDigits ds) (natOfDigits es) es.length hb
  constructor
  · rw [starsFullCount, hfl]
    exact Int.toNat_natCast _
  · rw [starsHalf, hfl, decide_eq_decide]
    have h10 : (0 : ℚ) < (10 : ℚ) ^ es.length := by positivity
    rw [show (natOfDigits ds : ℚ) + (natOfDigits es : ℚ) / (10 : ℚ) ^ es.length -
          ((natOfDigits ds : ℤ) : ℚ) = (natOfDigits es : ℚ) / (10 : ℚ) ^ es.length by
        push_cast; ring]
    rw [div_le_div_iff₀ (by norm_num : (0 : ℚ) < 2) h10, one_mul, mul_comm]
    constructor
    · intro h; exact_mod_cast h
    · intro h; exact_mod_cast h

/-- Claim C7: for a record with a non-empty rating token (digits, optionally
a period and further digits), the star rendering emits exactly the integer
part of the rating value in full-star glyphs, plus one half-star glyph
exactly when the fractional part is at least one half (for the token
`a.b` that is when twice the fraction digits reach `10 ^ (number of fraction
digits)`); in particular "3.5" gives 3 full stars and a half star, "4.0"
gives 4 full stars and no half star, and "5" gives 5 full stars and no half
star.  `stars_html_of` replicates the full-star glyph `starsFullCount` times
and appends the half glyph iff `starsHalf`. -/
theorem star_rendering_rule :
    (∀ ds : Txt, ds ≠ [] → (∀ d ∈ ds, isDigitN d = true) →
        starsFullCount (ratingValue ds) = natOfDigits ds ∧
          starsHalf (ratingValue ds) = false) ∧
    (∀ ds es : Txt, ds ≠ [] → (∀ d ∈ ds, isDigitN d = true) →
        (∀ d ∈ es, isDigitN d = true) →
        starsFullCount (ratingValue (ds ++ 46 :: es)) = natOfDigits ds ∧
          starsHalf (ratingValue (ds ++ 46 :: es)) =
            decide (10 ^ es.length ≤ 2 * natOfDigits es)) ∧
    (starsFullCount (ratingValue (enc "3.5")) = 3 ∧
      starsHalf (ratingValue (enc "3.5")) = true) ∧
    (starsFullCount (ratingValue (enc "4.0")) = 4 ∧
      starsHalf (ratingValue (enc "4.0")) = false) ∧
    (starsFullCount (ratingValue (enc "5")) = 5 ∧
      starsHalf (ratingValue (enc "5")) = false) := by
  have h35 : enc "3.5" = [51] ++ 46 :: [53] := by decide
  have h40 : enc "4.0" = [52] ++ 46 :: [48] := by decide
  have c35 := stars_dot [51] [53] (by decide) (by decide)
  have c40 := stars_dot [52] [48] (by decide) (by decide)
  have c5 := stars_nodot [53] (by decide)
  refine ⟨fun ds _ hds => stars_nodot ds hds,
          fun ds es _ hds hes => stars_dot ds es hds hes, ?_, ?_, ?_⟩
  · rw [h35]
    refine ⟨c35.1.trans (by decide), c35.2.trans (by decide)⟩
  · rw [h40]
    refine ⟨c40.1.trans (by decide), c40.2.trans (by decide)⟩
  · have h5 : enc "5" = [53] := by decide
    rw [h5]
    exact ⟨c5.1.trans (by decide), c5.2⟩

theorem star_rendering_rule_witness :
    starsFullCount (ratingValue ([51] ++ 46 :: [53])) = natOfDigits [51] ∧
      starsHalf (ratingValue ([51] ++ 46 :: [53])) =
        decide (10 ^ ([53] : Txt).length ≤ 2 * natOfDigits [53]) :=
  star_rendering_rule.2.1 [51] [53] (by decide) (by decide) (by decide)
